import Mathlib

/-!
Shallow embedding of the skin-weight transfer script (skin_merge.py) over an
abstract host scene graph, together with proofs about its operations.

The host 3D application owns the scene graph; the script only queries it
(shape children, deformer history, plug connections, weight tables) and
mutates it (attribute sets, connections, deformer creation, weight writes).
The embedding models the host answers as explicit data, pure functions from
the script as Lean functions, the mutations as an explicit event trace plus
explicit state passing, and raised exceptions as `Except` errors.
-/

namespace SkinMerge

/-- Scene node handle (a node in the host scene graph). -/
abbrev NodeId := Nat

/-- Abstract stand-in for a 4x4 matrix attribute value. -/
abbrev Mat := Nat

/-- Abstract stand-in for a scalar skin weight. -/
abbrev Weight := Nat

/-- A geometry shape node under a transform.  `intermediateObject` is the
host flag marking construction-history remnants that are not rendered. -/
structure Shape where
  id : NodeId
  intermediateObject : Bool
deriving DecidableEq, Repr

/-- A transform node together with its child shape nodes (the host answer
to `getShapes`). -/
structure Transform where
  id : NodeId
  shapes : List Shape
deriving DecidableEq, Repr

/-- An argument object as accepted by the script: either a transform node,
or a geometry shape node (type nurbsSurface, mesh or nurbsCurve) carried
with its parent transform.  This is the tagged union behind the duck-typed
`pm.PyNode(ob)` argument of the Python code. -/
inductive PmOb where
  | xform (t : Transform)
  | geo (s : Shape) (parent : Transform)
deriving DecidableEq, Repr

/-- The transform whose shapes `get_deform_shape` enumerates: the object
itself when it is a transform, its parent when the object is a geometry
shape (the branch `if ob.type() in [nurbsSurface, mesh, nurbsCurve]:
ob = ob.getParent()`). -/
def PmOb.hostTransform : PmOb → Transform
  | .xform t => t
  | .geo _ p => p

/-- The scene node identity of the argument object, used by the comparison
`node == ob` in `get_skin_cluster`. -/
def PmOb.nodeId : PmOb → NodeId
  | .xform t => t.id
  | .geo s _ => s.id

/-- Embedding of `get_deform_shape` (skin_merge.py lines 8-25): resolve the
transform, list its shapes; with exactly one shape return it, otherwise
filter out intermediate shapes and return the first remaining one, or
not-found when none remain. -/
def get_deform_shape (ob : PmOb) : Option Shape :=
  let shapes := ob.hostTransform.shapes
  if shapes.length = 1 then
    shapes[0]?
  else
    let real_shapes := shapes.filter fun x => !x.intermediateObject
    if real_shapes.length ≠ 0 then real_shapes[0]? else none

/-- One element plug of a matrix multi-attribute (bindPreMatrix or matrix):
its current value, and the upstream plug connected into it, when one is
connected.  `input = none` models an unconnected slot
(`x.isConnected() == False`); `input = some p` models
`x.inputs(plugs=True)[0] == p`. -/
structure Slot where
  value : Mat
  input : Option Nat
deriving DecidableEq, Repr

/-- A skinCluster node as the script reads it.  `groupIdOutputNodes` is the
host answer for the nodes reached by the output plugs of the groupId node
feeding `skin.input[0].groupId`; `weightRows` is the per-vertex,
per-influence weight table behind `MFnSkinCluster.getWeights` (one row per
vertex of the deformed mesh, one column per influence index); `influences`
is the influence count that `getWeights` returns. -/
structure SkinCluster where
  name : String
  weightDistribution : Int
  groupIdOutputNodes : List NodeId
  bindPreMatrix : List Slot
  matrix : List Slot
  influences : Nat
  weightRows : List (List Weight)
deriving DecidableEq, Repr

/-- The inner loop of `get_skin_cluster` (lines 50-54): does any node
reached by the output plugs of the groupId node of this skin equal the
deform shape or the original object? -/
def reaches (skin : SkinCluster) (shapeId obId : NodeId) : Bool :=
  skin.groupIdOutputNodes.any fun node => node == shapeId || node == obId

/-- The candidate loop of `get_skin_cluster` (lines 47-58) over the history
skins: the first skin whose groupId outputs reach the shape or the object
is returned after its weightDistribution is forced to 1 (neighbors); the
updated history list is returned alongside.  When no candidate matches,
`none` is returned and the list is unchanged. -/
def find_skin_loop (shapeId obId : NodeId) :
    List SkinCluster → Option SkinCluster × List SkinCluster
  | [] => (none, [])
  | skin :: rest =>
    if reaches skin shapeId obId then
      let skinM := { skin with weightDistribution := 1 }
      (some skinM, skinM :: rest)
    else
      let r := find_skin_loop shapeId obId rest
      (r.1, skin :: r.2)

/-- Embedding of `get_skin_cluster` (lines 29-58).  `history` is the host
answer for `pm.ls(pm.listHistory(shape), type=skinCluster)`: the
skinCluster nodes in the upstream history of the deform shape, in history
order.  Returns the located skin (if any) and the history list after the
weightDistribution side effect. -/
def get_skin_cluster (ob : PmOb) (history : List SkinCluster) :
    Option SkinCluster × List SkinCluster :=
  match get_deform_shape ob with
  | none => (none, history)
  | some shape => find_skin_loop shape.id ob.nodeId history

/-- A Python exception value, as the embedding distinguishes them. -/
inductive PyError where
  | valueError (msg : String)
  | nameError (missing : String)
  | attributeError (msg : String)
  | typeError (msg : String)
deriving DecidableEq, Repr

/-- A message actually displayed through the host logging channel. -/
inductive LogAction where
  | displayInfo (msg : String)
  | displayWarning (msg : String)
  | displayError (msg : String)
deriving DecidableEq, Repr

/-- The names bound at module scope by the import statements of
skin_merge.py (lines 1-4): OpenMaya as om2, OpenMayaAnim as oma2, and
pymel.core as pm.  The bare name om is not among them. -/
def module_scope : List String := ["om2", "oma2", "pm"]

/-- Python global-name resolution: a name outside the module scope raises
NameError when evaluated. -/
def lookup_global (n : String) : Except PyError Unit :=
  if n ∈ module_scope then .ok () else .error (.nameError n)

/-- Embedding of `log` (lines 62-72).  The both-flags case raises
ValueError first; otherwise the assignment on line 66 evaluates the name
om before any branch runs, so its name lookup decides what happens next.
On success the chosen severity function is applied to the message. -/
def log (msg : String) (warn error : Bool) : Except PyError LogAction :=
  if warn && error then
    .error (.valueError ("Please specify only one of warn / error."))
  else
    match lookup_global ("om") with
    | .error e => .error e
    | .ok _ =>
      let log_func := LogAction.displayInfo
      let log_func := if warn then LogAction.displayWarning
                      else if error then LogAction.displayError
                      else log_func
      .ok (log_func msg)

/-- A scene-graph mutation issued by `move_skin`, in issue order. -/
inductive Event where
  | selectClear
  | createDeformer (name : String)
  | setBindValue (index : Nat) (value : Mat)
  | setMatValue (index : Nat) (value : Mat)
  | connectBind (index : Nat) (sourcePlug : Nat)
  | connectMat (index : Nat) (sourcePlug : Nat)
  | setWeights (numVerts : Nat) (indices : List Nat) (weights : List Weight)
deriving DecidableEq, Repr

/-- Whether an event writes a bind or primary transform value on a slot. -/
def Event.isValueSet : Event → Bool
  | .setBindValue _ _ => true
  | .setMatValue _ _ => true
  | _ => false

/-- Whether an event wires a live connection onto a slot. -/
def Event.isConnect : Event → Bool
  | .connectBind _ _ => true
  | .connectMat _ _ => true
  | _ => false

/-- The state of an element of a freshly created multi-attribute on the
new target deformer: default value, no connection. -/
def freshSlot : Slot := { value := 0, input := none }

/-- A freshly created matrix multi-attribute: every element is fresh. -/
def freshArr : Nat → Slot := fun _ => freshSlot

/-- Plug write `arr[i].set(v)`: the element value changes, the connection
state of the element is untouched, every other element is untouched. -/
def updValue (arr : Nat → Slot) (i : Nat) (v : Mat) : Nat → Slot :=
  fun j => if j = i then { arr i with value := v } else arr j

/-- Connection `src >> arr[i]`: the element gains the upstream plug, its
value is untouched, every other element is untouched. -/
def connectInput (arr : Nat → Slot) (i : Nat) (p : Nat) : Nat → Slot :=
  fun j => if j = i then { arr i with input := some p } else arr j

/-- Python `zip` over three lists: tuples up to the shortest length. -/
def zip3 (as : List α) (bs : List β) (cs : List γ) : List (α × β × γ) :=
  as.zip (bs.zip cs)

/-- First copy pass of `move_skin` (lines 126-128): for each zipped
(index, bind value, matrix value) triple, set both values on the target
arrays and record the two write events in order. -/
def valuesLoop (bindArr matArr : Nat → Slot) :
    List (Nat × Mat × Mat) → (Nat → Slot) × (Nat → Slot) × List Event
  | [] => (bindArr, matArr, [])
  | (index, bind_value, mat_value) :: rest =>
    let bindArr := updValue bindArr index bind_value
    let matArr := updValue matArr index mat_value
    let r := valuesLoop bindArr matArr rest
    (r.1, r.2.1, Event.setBindValue index bind_value ::
      Event.setMatValue index mat_value :: r.2.2)

/-- Second copy pass of `move_skin` (lines 130-134): for each zipped
(index, bind input, matrix input) triple, wire a connection on the target
exactly when the source plug exists, recording the connect events. -/
def connectionsLoop (bindArr matArr : Nat → Slot) :
    List (Nat × Option Nat × Option Nat) → (Nat → Slot) × (Nat → Slot) × List Event
  | [] => (bindArr, matArr, [])
  | (index, bind_input, mat_input) :: rest =>
    let bindStep : (Nat → Slot) × List Event :=
      match bind_input with
      | some p => (connectInput bindArr index p, [Event.connectBind index p])
      | none => (bindArr, [])
    let matStep : (Nat → Slot) × List Event :=
      match mat_input with
      | some p => (connectInput matArr index p, [Event.connectMat index p])
      | none => (matArr, [])
    let r := connectionsLoop bindStep.1 matStep.1 rest
    (r.1, r.2.1, bindStep.2 ++ matStep.2 ++ r.2.2)

/-- Model of `MFnSkinCluster.setWeights(dp, completeComponents(numVerts),
range(m), ws)`: the flat weight array is applied positionally, entry
(vertex v, influence k) receiving ws[v * m + k]. -/
def chunkTable (numVerts m : Nat) (ws : List Weight) : List (List Weight) :=
  (List.range numVerts).map fun v =>
    (List.range m).map fun k => ws.getD (v * m + k) 0

/-- An exception escaping `move_skin`, together with the source-side skin
state and the mutation events already issued when it escaped. -/
structure Failure where
  err : PyError
  history : List SkinCluster
  events : List Event

/-- A successful `move_skin` run: the located source skin, the source-side
skin state after the locator side effect, the created target deformer
(name, bind and matrix multi-attributes, weight table) and the full
mutation event trace. -/
structure MoveResult where
  sourceSkin : SkinCluster
  history : List SkinCluster
  targetName : String
  targetBind : Nat → Slot
  targetMatrix : Nat → Slot
  targetTable : List (List Weight)
  events : List Event

/-- Embedding of `move_skin` (lines 107-143).  `history` is the host
history answer for the source deform shape; `targetNumVerts` the vertex
count of the target deform mesh.  Failure points follow the Python
control flow: a none source shape fails at `source_shape.longName()`
before anything is mutated; a none source skin fails at
`oma2.MFnSkinCluster(None)` before anything is mutated; a none target
shape fails at `om2.MFnMesh(None)` after the copy loops but before the
weight write. -/
def move_skin (source target : PmOb) (history : List SkinCluster)
    (targetNumVerts : Nat) : Except Failure MoveResult :=
  match get_deform_shape source with
  | none =>
    .error { err := .attributeError ("NoneType object has no attribute longName"),
             history := history, events := [] }
  | some _source_shape =>
    match get_skin_cluster source history with
    | (none, history1) =>
      .error { err := .typeError ("MFnSkinCluster requires a dependency node"),
               history := history1, events := [] }
    | (some source_skin, history1) =>
      let weights := source_skin.weightRows.flatten
      let influence_count := source_skin.influences
      let targetName := "MERGED__" ++ source_skin.name
      let events0 : List Event := [Event.selectClear, Event.createDeformer targetName]
      let bind_inputs := source_skin.bindPreMatrix.map fun x => x.input
      let bind_values := source_skin.bindPreMatrix.map fun x => x.value
      let mat_inputs := source_skin.matrix.map fun x => x.input
      let mat_values := source_skin.matrix.map fun x => x.value
      let v := valuesLoop freshArr freshArr
        (zip3 (List.range influence_count) bind_values mat_values)
      let c := connectionsLoop v.1 v.2.1
        (zip3 (List.range influence_count) bind_inputs mat_inputs)
      match get_deform_shape target with
      | none =>
        .error { err := .typeError ("MFnMesh requires a dependency node"),
                 history := history1, events := events0 ++ v.2.2 ++ c.2.2 }
      | some _target_shape =>
        let all_indices := List.range influence_count
        .ok { sourceSkin := source_skin
              history := history1
              targetName := targetName
              targetBind := c.1
              targetMatrix := c.2.1
              targetTable := chunkTable targetNumVerts influence_count weights
              events := events0 ++ v.2.2 ++ c.2.2 ++
                [Event.setWeights targetNumVerts all_indices weights] }

/-- The result record a successful `move_skin` run builds, written out as
a function of the located skin, the post-locator history and the target
vertex count.  This mirrors the success branch of `move_skin` exactly and
is proved equal to it below. -/
def mkResult (skin : SkinCluster) (hist1 : List SkinCluster) (tnv : Nat) :
    MoveResult :=
  let weights := skin.weightRows.flatten
  let influence_count := skin.influences
  let targetName := "MERGED__" ++ skin.name
  let events0 : List Event := [Event.selectClear, Event.createDeformer targetName]
  let bind_inputs := skin.bindPreMatrix.map fun x => x.input
  let bind_values := skin.bindPreMatrix.map fun x => x.value
  let mat_inputs := skin.matrix.map fun x => x.input
  let mat_values := skin.matrix.map fun x => x.value
  let v := valuesLoop freshArr freshArr
    (zip3 (List.range influence_count) bind_values mat_values)
  let c := connectionsLoop v.1 v.2.1
    (zip3 (List.range influence_count) bind_inputs mat_inputs)
  { sourceSkin := skin
    history := hist1
    targetName := targetName
    targetBind := c.1
    targetMatrix := c.2.1
    targetTable := chunkTable tnv influence_count weights
    events := events0 ++ v.2.2 ++ c.2.2 ++
      [Event.setWeights tnv (List.range influence_count) weights] }

/-- The observable outcome of one run of the module entry point: the
mutation events issued, the source-side skin state, the messages actually
displayed, and the uncaught exception when one escapes. -/
structure MainResult where
  events : List Event
  history : List SkinCluster
  logged : List LogAction
  err : Option PyError

/-- Embedding of the module entry point (lines 149-160): with exactly two
selected items run `move_skin` and then log the success message, otherwise
log the selection error message.  An exception anywhere surfaces as `err`
with the events issued so far. -/
def main_run (items : List PmOb) (history : List SkinCluster)
    (targetNumVerts : Nat) : MainResult :=
  if h : items.length = 2 then
    match move_skin (items.get ⟨0, by omega⟩) (items.get ⟨1, by omega⟩)
        history targetNumVerts with
    | .error f => { events := f.events, history := f.history, logged := [],
                    err := some f.err }
    | .ok res =>
      match log ("+ SkinMerge: Complete. Merged skin from source onto target.")
          false false with
      | .error e => { events := res.events, history := res.history, logged := [],
                      err := some e }
      | .ok act => { events := res.events, history := res.history,
                     logged := [act], err := none }
  else
    match log ("-- Please select a skinned mesh and a target mesh.")
        false true with
    | .error e => { events := [], history := history, logged := [], err := some e }
    | .ok act => { events := [], history := history, logged := [act], err := none }

/-- Holds exactly when a `move_skin` run succeeded and its result
satisfies the predicate. -/
def onOk (r : Except Failure MoveResult) (P : MoveResult → Prop) : Prop :=
  match r with
  | .ok res => P res
  | .error _ => False

/-- Holds exactly when a `move_skin` run failed and the escaping failure
satisfies the predicate. -/
def onError (r : Except Failure MoveResult) (P : Failure → Prop) : Prop :=
  match r with
  | .ok _ => False
  | .error f => P f

/-- Two-pass discipline over a mutation trace: once a connect event has
been issued, no slot value write follows. -/
def twoPassOk (r : MoveResult) : Prop :=
  r.events.Pairwise fun a b => a.isConnect = true → b.isValueSet = false

/-- Every influence slot of the skin had both its bind value and its
primary transform value written somewhere in the trace. -/
def allValuesWritten (skin : SkinCluster) (evs : List Event) : Bool :=
  (List.range skin.influences).all fun i =>
    decide (Event.setBindValue i (skin.bindPreMatrix.getD i freshSlot).value ∈ evs) &&
    decide (Event.setMatValue i (skin.matrix.getD i freshSlot).value ∈ evs)

/-- The source-side frame of the locator: the history list is unchanged
except that the one located skin had its weightDistribution set to 1. -/
def frameOk (history hist2 : List SkinCluster) (skinM : SkinCluster) : Prop :=
  ∃ pre skin post, history = pre ++ skin :: post ∧
    hist2 = pre ++ skinM :: post ∧
    skinM = { skin with weightDistribution := 1 }

/-! Concrete scene fixtures used by the witness theorems. -/

/-- A non-intermediate deform shape for the source mesh. -/
def wShapeS : Shape := { id := 1, intermediateObject := false }

/-- The source object: a transform with one shape. -/
def wSource : PmOb := .xform { id := 0, shapes := [wShapeS] }

/-- A non-intermediate deform shape for the target mesh. -/
def wShapeT : Shape := { id := 11, intermediateObject := false }

/-- The target object: a transform with one shape. -/
def wTarget : PmOb := .xform { id := 10, shapes := [wShapeT] }

/-- A source skinCluster with two influences whose groupId outputs reach
the source shape; slot 0 of each array is connected, slot 1 is not. -/
def wSkin : SkinCluster :=
  { name := "skinCluster1"
    weightDistribution := 0
    groupIdOutputNodes := [1]
    bindPreMatrix := [{ value := 5, input := some 100 }, { value := 6, input := none }]
    matrix := [{ value := 7, input := some 200 }, { value := 8, input := none }]
    influences := 2
    weightRows := [[3, 4], [1, 2]] }

/-- The source history list: just the one skin. -/
def wHistory : List SkinCluster := [wSkin]

/-- The located skin after the weightDistribution side effect. -/
def wSkin1 : SkinCluster := { wSkin with weightDistribution := 1 }

/-- A second source object whose history holds no reaching skin. -/
def wSourceNoSkin : PmOb :=
  .xform { id := 20, shapes := [{ id := 21, intermediateObject := false }] }

/-- A transform whose two shapes are both intermediate. -/
def wAllIntermediate : PmOb :=
  .xform { id := 30, shapes := [{ id := 31, intermediateObject := true },
                                { id := 32, intermediateObject := true }] }

/-! Helper lemmas. -/

/-- The candidate loop returns exactly the first reaching skin of the
list, with its weightDistribution forced to 1. -/
theorem find_skin_loop_fst (shapeId obId : NodeId) (l : List SkinCluster) :
    (find_skin_loop shapeId obId l).1 =
      (l.find? fun s => reaches s shapeId obId).map
        fun s => { s with weightDistribution := 1 } := by
  induction l with
  | nil => rfl
  | cons skin rest ih =>
    by_cases h : reaches skin shapeId obId
    · simp [find_skin_loop, h]
    · have hstep : (find_skin_loop shapeId obId (skin :: rest)).1 =
          (find_skin_loop shapeId obId rest).1 := by
        simp [find_skin_loop, h]
      rw [hstep, ih, List.find?_cons_of_neg rest h]

/-- When no candidate reaches, the candidate loop leaves the history list
unchanged. -/
theorem find_skin_loop_none_snd (shapeId obId : NodeId) (l : List SkinCluster)
    (h : (find_skin_loop shapeId obId l).1 = none) :
    (find_skin_loop shapeId obId l).2 = l := by
  induction l with
  | nil => rfl
  | cons skin rest ih =>
    by_cases hr : reaches skin shapeId obId
    · simp [find_skin_loop, hr] at h
    · simp only [find_skin_loop, hr, Bool.false_eq_true, if_false] at h ⊢
      rw [ih h]

/-- When the candidate loop finds a skin, the returned skin has its
weightDistribution forced to 1 and the returned list differs from the
input list in that one entry only. -/
theorem find_skin_loop_some (shapeId obId : NodeId) (l : List SkinCluster)
    (skinM : SkinCluster) (l2 : List SkinCluster)
    (h : find_skin_loop shapeId obId l = (some skinM, l2)) :
    skinM.weightDistribution = 1 ∧ frameOk l l2 skinM := by
  induction l generalizing l2 with
  | nil => exact absurd (congrArg Prod.fst h) (by simp [find_skin_loop])
  | cons skin rest ih =>
    by_cases hr : reaches skin shapeId obId
    · simp only [find_skin_loop, hr, if_true, Prod.mk.injEq, Option.some.injEq] at h
      obtain ⟨h1, h2⟩ := h
      refine ⟨by rw [← h1], ⟨[], skin, rest, rfl, ?_, h1.symm⟩⟩
      simp [← h1, ← h2]
    · simp only [find_skin_loop, hr, Bool.false_eq_true, if_false,
        Prod.mk.injEq] at h
      obtain ⟨h1, h2⟩ := h
      have hpair : find_skin_loop shapeId obId rest =
          (some skinM, (find_skin_loop shapeId obId rest).2) := by
        rw [← h1]
      obtain ⟨hwd, pre, s, post, hl, hl2, hs⟩ :=
        ih ((find_skin_loop shapeId obId rest).2) hpair
      exact ⟨hwd, skin :: pre, s, post, by rw [hl, List.cons_append],
        by rw [← h2, hl2, List.cons_append], hs⟩

/-- Reconstructing a list from positional reads over its indices. -/
theorem map_getD_range (l : List α) (d : α) :
    (List.range l.length).map (fun k => l.getD k d) = l := by
  induction l with
  | nil => rfl
  | cons a tl ih =>
    rw [List.length_cons, List.range_succ_eq_map, List.map_cons, List.map_map]
    simp only [List.getD_cons_zero, Function.comp_def, Nat.succ_eq_add_one,
      List.getD_cons_succ]
    rw [ih]

/-- Splitting a positional read of a flattened table at the first row. -/
theorem chunk_flatten (rows : List (List Weight)) (m : Nat)
    (h : ∀ r ∈ rows, r.length = m) :
    chunkTable rows.length m rows.flatten = rows := by
  induction rows with
  | nil => rfl
  | cons r tl ih =>
    have hr : r.length = m := h r (List.mem_cons_self r tl)
    rw [List.length_cons, chunkTable, List.range_succ_eq_map, List.map_cons,
      List.map_map]
    congr 1
    · rw [List.flatten_cons]
      calc (List.range m).map (fun k => (r ++ tl.flatten).getD (0 * m + k) 0)
          = (List.range m).map (fun k => r.getD k 0) := by
            apply List.map_congr_left
            intro k hk
            rw [List.mem_range] at hk
            rw [Nat.zero_mul, Nat.zero_add]
            exact List.getD_append r tl.flatten 0 k (by omega)
        _ = r := by rw [← hr]; exact map_getD_range r 0
    · have htl : ∀ r1 ∈ tl, r1.length = m :=
        fun r1 h1 => h r1 (List.mem_cons_of_mem r h1)
      calc (List.range tl.length).map
            ((fun v => (List.range m).map fun k => (r :: tl).flatten.getD (v * m + k) 0)
              ∘ Nat.succ)
          = (List.range tl.length).map
              (fun v => (List.range m).map fun k => tl.flatten.getD (v * m + k) 0) := by
            apply List.map_congr_left
            intro v _
            simp only [Function.comp_apply]
            apply List.map_congr_left
            intro k _
            rw [List.flatten_cons]
            have harith : Nat.succ v * m + k = r.length + (v * m + k) := by
              rw [hr]; simp only [Nat.succ_eq_add_one]; ring
            rw [harith, List.getD_append_right r tl.flatten 0 (r.length + (v * m + k))
              (by omega)]
            congr 1
            omega
        _ = tl := ih htl

/-- A slot index touched by no triple is untouched by the value pass. -/
theorem valuesLoop_not_mem (l : List (Nat × Mat × Mat)) (b m : Nat → Slot)
    (i : Nat) (h : ∀ t ∈ l, t.1 ≠ i) :
    (valuesLoop b m l).1 i = b i ∧ (valuesLoop b m l).2.1 i = m i := by
  induction l generalizing b m with
  | nil => exact ⟨rfl, rfl⟩
  | cons hd tl ih =>
    obtain ⟨j, bv, mv⟩ := hd
    have hij : i ≠ j := fun hh => (h (j, bv, mv) (List.mem_cons_self _ _)) hh.symm
    have htl : ∀ t ∈ tl, t.1 ≠ i := fun t ht => h t (List.mem_cons_of_mem _ ht)
    have := ih (updValue b j bv) (updValue m j mv) htl
    simpa [valuesLoop, updValue, if_neg hij] using this

/-- With distinct indices, a triple of the value pass determines the final
value of its slot: the value is written, the connection state kept. -/
theorem valuesLoop_mem (l : List (Nat × Mat × Mat)) (b m : Nat → Slot)
    (i : Nat) (bv mv : Mat) (hnd : (l.map Prod.fst).Nodup)
    (hmem : (i, bv, mv) ∈ l) :
    (valuesLoop b m l).1 i = { b i with value := bv } ∧
    (valuesLoop b m l).2.1 i = { m i with value := mv } := by
  induction l generalizing b m with
  | nil => cases hmem
  | cons hd tl ih =>
    obtain ⟨j, bv0, mv0⟩ := hd
    rw [List.map_cons, List.nodup_cons] at hnd
    rcases List.mem_cons.mp hmem with heq | htl
    · obtain ⟨rfl, rfl, rfl⟩ := Prod.mk.injEq .. ▸ heq
      have hnt : ∀ t ∈ tl, t.1 ≠ i := by
        intro t ht hti
        have h1 : t.1 ∈ tl.map Prod.fst := List.mem_map_of_mem Prod.fst ht
        exact hnd.1 (hti ▸ h1)
      have := valuesLoop_not_mem tl (updValue b i bv) (updValue m i mv) i hnt
      simpa [valuesLoop, updValue] using this
    · have hin : i ∈ tl.map Prod.fst := List.mem_map_of_mem Prod.fst htl
      have hij : i ≠ j := fun hh => hnd.1 (hh ▸ hin)
      have := ih (updValue b j bv0) (updValue m j mv0) hnd.2 htl
      simpa [valuesLoop, updValue, if_neg hij] using this

/-- Every event of the value pass is a value write, never a connect. -/
theorem valuesLoop_events_shape (l : List (Nat × Mat × Mat)) (b m : Nat → Slot)
    (e : Event) (he : e ∈ (valuesLoop b m l).2.2) :
    e.isValueSet = true ∧ e.isConnect = false := by
  induction l generalizing b m with
  | nil => cases he
  | cons hd tl ih =>
    obtain ⟨j, bv, mv⟩ := hd
    simp only [valuesLoop, List.mem_cons] at he
    rcases he with rfl | rfl | he
    · exact ⟨rfl, rfl⟩
    · exact ⟨rfl, rfl⟩
    · exact ih (updValue b j bv) (updValue m j mv) he

/-- A triple of the value pass puts both of its write events into the
trace of the pass. -/
theorem valuesLoop_events_mem (l : List (Nat × Mat × Mat)) (b m : Nat → Slot)
    (i : Nat) (bv mv : Mat) (hmem : (i, bv, mv) ∈ l) :
    Event.setBindValue i bv ∈ (valuesLoop b m l).2.2 ∧
    Event.setMatValue i mv ∈ (valuesLoop b m l).2.2 := by
  induction l generalizing b m with
  | nil => cases hmem
  | cons hd tl ih =>
    obtain ⟨j, bv0, mv0⟩ := hd
    rcases List.mem_cons.mp hmem with heq | htl
    · obtain ⟨rfl, rfl, rfl⟩ := Prod.mk.injEq .. ▸ heq
      constructor
      · exact List.mem_cons_self _ _
      · exact List.mem_cons_of_mem _ (List.mem_cons_self _ _)
    · have := ih (updValue b j bv0) (updValue m j mv0) htl
      exact ⟨List.mem_cons_of_mem _ (List.mem_cons_of_mem _ this.1),
             List.mem_cons_of_mem _ (List.mem_cons_of_mem _ this.2)⟩

/-- A slot index touched by no triple is untouched by the connection
pass. -/
theorem connectionsLoop_not_mem (l : List (Nat × Option Nat × Option Nat))
    (b m : Nat → Slot) (i : Nat) (h : ∀ t ∈ l, t.1 ≠ i) :
    (connectionsLoop b m l).1 i = b i ∧ (connectionsLoop b m l).2.1 i = m i := by
  induction l generalizing b m with
  | nil => exact ⟨rfl, rfl⟩
  | cons hd tl ih =>
    obtain ⟨j, bi, mi⟩ := hd
    have hij : i ≠ j := fun hh => (h (j, bi, mi) (List.mem_cons_self _ _)) hh.symm
    have htl : ∀ t ∈ tl, t.1 ≠ i := fun t ht => h t (List.mem_cons_of_mem _ ht)
    rcases bi with _ | p <;> rcases mi with _ | q
    · have := ih b m htl
      simpa [connectionsLoop] using this
    · have := ih b (connectInput m j q) htl
      simpa [connectionsLoop, connectInput, if_neg hij] using this
    · have := ih (connectInput b j p) m htl
      simpa [connectionsLoop, connectInput, if_neg hij] using this
    · have := ih (connectInput b j p) (connectInput m j q) htl
      simpa [connectionsLoop, connectInput, if_neg hij] using this

/-- With distinct indices, a triple of the connection pass determines the
final connection state of its slot: wired exactly when the source plug
exists, value kept either way. -/
theorem connectionsLoop_mem (l : List (Nat × Option Nat × Option Nat))
    (b m : Nat → Slot) (i : Nat) (bi mi : Option Nat)
    (hnd : (l.map Prod.fst).Nodup) (hmem : (i, bi, mi) ∈ l) :
    (connectionsLoop b m l).1 i = { b i with input := bi.or ((b i).input) } ∧
    (connectionsLoop b m l).2.1 i = { m i with input := mi.or ((m i).input) } := by
  induction l generalizing b m with
  | nil => cases hmem
  | cons hd tl ih =>
    obtain ⟨j, bi0, mi0⟩ := hd
    rw [List.map_cons, List.nodup_cons] at hnd
    rcases List.mem_cons.mp hmem with heq | htl
    · obtain ⟨rfl, rfl, rfl⟩ := Prod.mk.injEq .. ▸ heq
      have hnt : ∀ t ∈ tl, t.1 ≠ i := by
        intro t ht hti
        have h1 : t.1 ∈ tl.map Prod.fst := List.mem_map_of_mem Prod.fst ht
        exact hnd.1 (hti ▸ h1)
      rcases bi with _ | p <;> rcases mi with _ | q
      · have := connectionsLoop_not_mem tl b m i hnt
        simpa [connectionsLoop] using this
      · have := connectionsLoop_not_mem tl b (connectInput m i q) i hnt
        simpa [connectionsLoop, connectInput] using this
      · have := connectionsLoop_not_mem tl (connectInput b i p) m i hnt
        simpa [connectionsLoop, connectInput] using this
      · have := connectionsLoop_not_mem tl (connectInput b i p)
          (connectInput m i q) i hnt
        simpa [connectionsLoop, connectInput] using this
    · have hin : i ∈ tl.map Prod.fst := List.mem_map_of_mem Prod.fst htl
      have hij : i ≠ j := fun hh => hnd.1 (hh ▸ hin)
      rcases bi0 with _ | p <;> rcases mi0 with _ | q
      · have := ih b m hnd.2 htl
        simpa [connectionsLoop] using this
      · have := ih b (connectInput m j q) hnd.2 htl
        simpa [connectionsLoop, connectInput, if_neg hij] using this
      · have := ih (connectInput b j p) m hnd.2 htl
        simpa [connectionsLoop, connectInput, if_neg hij] using this
      · have := ih (connectInput b j p) (connectInput m j q) hnd.2 htl
        simpa [connectionsLoop, connectInput, if_neg hij] using this

/-- Every event of the connection pass is a connect, never a value
write. -/
theorem connectionsLoop_events_shape (l : List (Nat × Option Nat × Option Nat))
    (b m : Nat → Slot) (e : Event) (he : e ∈ (connectionsLoop b m l).2.2) :
    e.isConnect = true ∧ e.isValueSet = false := by
  induction l generalizing b m with
  | nil => cases he
  | cons hd tl ih =>
    obtain ⟨j, bi, mi⟩ := hd
    rcases bi with _ | p <;> rcases mi with _ | q
    · simp only [connectionsLoop, List.nil_append] at he
      exact ih b m he
    · simp only [connectionsLoop, List.nil_append, List.singleton_append,
        List.mem_cons] at he
      rcases he with rfl | he
      · exact ⟨rfl, rfl⟩
      · exact ih b (connectInput m j q) he
    · simp only [connectionsLoop, List.append_nil, List.singleton_append,
        List.mem_cons] at he
      rcases he with rfl | he
      · exact ⟨rfl, rfl⟩
      · exact ih (connectInput b j p) m he
    · simp only [connectionsLoop, List.singleton_append, List.cons_append,
        List.nil_append, List.mem_cons] at he
      rcases he with rfl | rfl | he
      · exact ⟨rfl, rfl⟩
      · exact ⟨rfl, rfl⟩
      · exact ih (connectInput b j p) (connectInput m j q) he

/-- The first projections of a three-way zip against an index range are
the range itself when the value lists are long enough. -/
theorem map_fst_zip3 (n : Nat) (bs : List β) (cs : List γ)
    (hb : n ≤ bs.length) (hc : n ≤ cs.length) :
    ((zip3 (List.range n) bs cs).map Prod.fst) = List.range n := by
  apply List.map_fst_zip
  rw [List.length_zip, List.length_range]
  omega

/-- Positional membership in a three-way zip. -/
theorem mem_zip3 (as : List α) (bs : List β) (cs : List γ) (i : Nat)
    (ha : i < as.length) (hb : i < bs.length) (hc : i < cs.length) :
    (as[i], bs[i], cs[i]) ∈ zip3 as bs cs := by
  have hlen : i < (as.zip (bs.zip cs)).length := by
    rw [List.length_zip, List.length_zip]
    omega
  have : (as.zip (bs.zip cs))[i] = (as[i], bs[i], cs[i]) := by
    rw [List.getElem_zip, List.getElem_zip]
  exact this ▸ List.getElem_mem hlen

/-- A successful `move_skin` run computes exactly the record built by
`mkResult` from the located skin. -/
theorem move_skin_eq_ok (source target : PmOb) (history : List SkinCluster)
    (tnv : Nat) (skin : SkinCluster) (hist1 : List SkinCluster)
    (hskin : get_skin_cluster source history = (some skin, hist1))
    (hts : (get_deform_shape target).isSome = true) :
    move_skin source target history tnv = .ok (mkResult skin hist1 tnv) := by
  rcases hsd : get_deform_shape source with _ | sh
  · simp [get_skin_cluster, hsd] at hskin
  · rcases hst : get_deform_shape target with _ | tsh
    · rw [hst] at hts
      simp at hts
    · simp only [move_skin, hsd, hskin, hst]
      rfl

/-- A trace whose first block has no connect event and whose second block
has no value write satisfies the two-pass ordering. -/
theorem pairwise_split (l1 l2 : List Event)
    (h1 : ∀ e ∈ l1, e.isConnect = false)
    (h2 : ∀ e ∈ l2, e.isValueSet = false) :
    (l1 ++ l2).Pairwise
      (fun a b => a.isConnect = true → b.isValueSet = false) := by
  rw [List.pairwise_append]
  refine ⟨List.pairwise_of_forall_mem_list ?_,
    List.pairwise_of_forall_mem_list ?_, ?_⟩
  · intro a ha b _ hc
    rw [h1 a ha] at hc
    cases hc
  · intro a _ b hb _
    exact h2 b hb
  · intro a _ b hb _
    exact h2 b hb

/-! Claim theorems. -/

/-- Claim C2: whenever the deform shape of the object resolves, the located skin
is exactly the first candidate in host history order whose groupId node
output connections reach the deform shape or the original object (with the
weightDistribution side effect applied), and not-found exactly when no
candidate reaches either. -/
theorem C2_first_reaching_skin (ob : PmOb) (history : List SkinCluster)
    (shape : Shape) (h : get_deform_shape ob = some shape) :
    (get_skin_cluster ob history).1 =
      (history.find? fun s => reaches s shape.id ob.nodeId).map
        fun s => { s with weightDistribution := 1 } := by
  simp only [get_skin_cluster, h]
  exact find_skin_loop_fst shape.id ob.nodeId history

/-- Witness for C2: on the concrete fixture scene the located skin is the
first reaching history entry. -/
theorem C2_first_reaching_skin_witness :
    (get_skin_cluster wSource wHistory).1 =
      (wHistory.find? fun s => reaches s wShapeS.id wSource.nodeId).map
        fun s => { s with weightDistribution := 1 } :=
  C2_first_reaching_skin wSource wHistory wShapeS rfl

/-- Claim C4: an object whose resolved transform has exactly one non-intermediate
child shape resolves to that shape; an object with two or more child shapes
all flagged intermediate resolves to not-found. -/
theorem C4_deform_shape_resolution (ob : PmOb) (s : Shape) :
    (ob.hostTransform.shapes.filter (fun x => !x.intermediateObject) = [s] →
      get_deform_shape ob = some s) ∧
    (2 ≤ ob.hostTransform.shapes.length →
      (∀ x ∈ ob.hostTransform.shapes, x.intermediateObject = true) →
      get_deform_shape ob = none) := by
  constructor
  · intro hfilter
    by_cases hlen : ob.hostTransform.shapes.length = 1
    · obtain ⟨a, ha⟩ := List.length_eq_one.mp hlen
      rw [ha] at hfilter
      rcases hai : a.intermediateObject with _ | _
      · simp only [List.filter_cons, hai, Bool.not_false, if_true,
          List.filter_nil] at hfilter
        obtain ⟨rfl, -⟩ := List.cons_eq_cons.mp hfilter
        simp [get_deform_shape, hlen, ha]
      · rw [List.filter_cons_of_neg (by simp [hai]), List.filter_nil] at hfilter
        cases hfilter
    · simp [get_deform_shape, hlen, hfilter]
  · intro hlen2 hall
    have hlen1 : ¬(ob.hostTransform.shapes.length = 1) := by omega
    have hfil : ob.hostTransform.shapes.filter (fun x => !x.intermediateObject) = [] := by
      rw [List.filter_eq_nil_iff]
      intro a ha
      simp [hall a ha]
    simp [get_deform_shape, hlen1, hfil]

/-- Witness for C4: the fixture source transform resolves to its single
non-intermediate shape, and a transform with two intermediate shapes
resolves to not-found. -/
theorem C4_deform_shape_resolution_witness :
    get_deform_shape wSource = some wShapeS ∧
    get_deform_shape wAllIntermediate = none :=
  ⟨(C4_deform_shape_resolution wSource wShapeS).1 (by decide),
   (C4_deform_shape_resolution wAllIntermediate wShapeS).2 (by decide) (by decide)⟩

/-- Claim C5: with a selection of any size other than two, the entry point
issues no scene mutation and leaves the source skins untouched, but it
does not display the error message either: the log call raises NameError
on the unbound name om before any message is displayed.  This contradicts
the claim that an error-severity message is always emitted. -/
theorem C5_selection_error_no_message (items : List PmOb)
    (history : List SkinCluster) (tnv : Nat) (h : items.length ≠ 2) :
    main_run items history tnv =
      { events := [], history := history, logged := [],
        err := some (.nameError ("om")) } := by
  simp only [main_run]
  rw [dif_neg h]
  rfl

/-- Witness for C5: the empty selection mutates nothing and displays
nothing, surfacing NameError instead. -/
theorem C5_selection_error_no_message_witness :
    main_run [] wHistory 2 =
      { events := [], history := wHistory, logged := [],
        err := some (.nameError ("om")) } :=
  C5_selection_error_no_message [] wHistory 2 (by decide)

/-- Claim C6: for every flag combination except warn and error both set, `log`
raises NameError on the unbound name om, so no message is ever displayed
through it. -/
theorem C6_log_name_error (msg : String) (warn error : Bool)
    (h : ¬(warn = true ∧ error = true)) :
    log msg warn error = .error (.nameError ("om")) := by
  cases warn <;> cases error <;> first
  | rfl
  | exact absurd ⟨rfl, rfl⟩ h

/-- Witness for C6: the selection-error call of the entry point raises
NameError instead of displaying its message. -/
theorem C6_log_name_error_witness :
    log ("-- Please select a skinned mesh and a target mesh.") false true =
      .error (.nameError ("om")) :=
  C6_log_name_error ("-- Please select a skinned mesh and a target mesh.")
    false true (by decide)

/-- Claim C8: whenever the locator succeeds, the returned skin has its
weightDistribution forced to 1, and the source-side state is otherwise
unchanged: the history list differs from the input in that one located
entry only, and that entry differs in the weightDistribution attribute
only. -/
theorem C8_locator_side_effect (ob : PmOb) (history : List SkinCluster)
    (skinM : SkinCluster) (hist2 : List SkinCluster)
    (h : get_skin_cluster ob history = (some skinM, hist2)) :
    skinM.weightDistribution = 1 ∧ frameOk history hist2 skinM := by
  rcases hsd : get_deform_shape ob with _ | shape
  · simp [get_skin_cluster, hsd] at h
  · simp only [get_skin_cluster, hsd] at h
    exact find_skin_loop_some shape.id ob.nodeId history skinM hist2 h

/-- Witness for C8: locating the fixture skin sets its weightDistribution to 1
and changes nothing else. -/
theorem C8_locator_side_effect_witness :
    wSkin1.weightDistribution = 1 ∧ frameOk wHistory [wSkin1] wSkin1 :=
  C8_locator_side_effect wSource wHistory wSkin1 [wSkin1] rfl

/-- Claim C9: requesting both warning and error severity raises ValueError, and
the rejection happens before any log call: the result carries no displayed
message. -/
theorem C9_log_both_flags (msg : String) :
    log msg true true =
      .error (.valueError ("Please specify only one of warn / error.")) := rfl

/-- Claim C10: when the source deform shape does not resolve, or no effective
skin is located on the source, `move_skin` fails with a null-dereference
style error (AttributeError on longName, or TypeError building the
function set over None) having issued no mutation event — in particular
neither the selection clear nor the target deformer creation happened —
and with the source-side skin state unchanged. -/
theorem C10_null_failure_no_mutation (source target : PmOb)
    (history : List SkinCluster) (tnv : Nat)
    (h : get_deform_shape source = none ∨
         (get_skin_cluster source history).1 = none) :
    onError (move_skin source target history tnv)
      (fun f => f.events = [] ∧ f.history = history ∧
        (f.err = .attributeError ("NoneType object has no attribute longName") ∨
         f.err = .typeError ("MFnSkinCluster requires a dependency node"))) := by
  rcases hsd : get_deform_shape source with _ | sh
  · simp only [move_skin, hsd]
    exact ⟨rfl, rfl, Or.inl rfl⟩
  · have hnone : (get_skin_cluster source history).1 = none := by
      rcases h with h | h
      · rw [hsd] at h
        cases h
      · exact h
    have hloop : get_skin_cluster source history =
        find_skin_loop sh.id source.nodeId history := by
      simp [get_skin_cluster, hsd]
    have hnone2 : (find_skin_loop sh.id source.nodeId history).1 = none := by
      rw [hloop] at hnone
      exact hnone
    have h2 := find_skin_loop_none_snd sh.id source.nodeId history hnone2
    have hpair : get_skin_cluster source history = (none, history) := by
      rw [hloop]
      calc find_skin_loop sh.id source.nodeId history
          = ((find_skin_loop sh.id source.nodeId history).1,
             (find_skin_loop sh.id source.nodeId history).2) := rfl
        _ = (none, history) := by rw [hnone2, h2]
    simp only [move_skin, hsd, hpair]
    exact ⟨rfl, rfl, Or.inr rfl⟩

/-- Witness for C10: a source with an empty deformer history fails with
TypeError before any mutation. -/
theorem C10_null_failure_no_mutation_witness :
    onError (move_skin wSourceNoSkin wTarget [] 2)
      (fun f => f.events = [] ∧ f.history = [] ∧
        (f.err = .attributeError ("NoneType object has no attribute longName") ∨
         f.err = .typeError ("MFnSkinCluster requires a dependency node"))) :=
  C10_null_failure_no_mutation wSourceNoSkin wTarget [] 2 (Or.inr rfl)

/-- Claim C1: under the preconditions (source resolves and carries a locatable
skin, target resolves) and matching vertex counts, the weight table stored
on the target deformer after transplant equals, vertex by vertex and
influence by influence, the table read from the source deformer before
transplant, under the influence ordering 0 up to the influence count. -/
theorem C1_weight_round_trip (source target : PmOb)
    (history : List SkinCluster) (tnv : Nat) (skin : SkinCluster)
    (hist1 : List SkinCluster)
    (hskin : get_skin_cluster source history = (some skin, hist1))
    (hts : (get_deform_shape target).isSome = true)
    (hrows : skin.weightRows.length = tnv)
    (hcols : ∀ row ∈ skin.weightRows, row.length = skin.influences) :
    onOk (move_skin source target history tnv)
      (fun res => res.targetTable = res.sourceSkin.weightRows) := by
  rw [move_skin_eq_ok source target history tnv skin hist1 hskin hts]
  show chunkTable tnv skin.influences skin.weightRows.flatten = skin.weightRows
  rw [← hrows]
  exact chunk_flatten skin.weightRows skin.influences hcols

/-- Witness for C1: on the fixture scene with two vertices and two influences
the transplanted table equals the source table. -/
theorem C1_weight_round_trip_witness :
    onOk (move_skin wSource wTarget wHistory 2)
      (fun res => res.targetTable = res.sourceSkin.weightRows) :=
  C1_weight_round_trip wSource wTarget wHistory 2 wSkin1 [wSkin1] rfl rfl rfl
    (by decide)

/-- Claim C3: for every influence slot index below the influence count, the
transplant writes the source bind-transform value and primary transform
value onto the target slot unconditionally, and the target slot carries a
live connection exactly when the source slot did, with the same upstream
plug — in particular no connection is created for a slot unconnected on
the source. -/
theorem C3_slot_values_and_connections (source target : PmOb)
    (history : List SkinCluster) (tnv : Nat) (skin : SkinCluster)
    (hist1 : List SkinCluster) (i : Nat)
    (hskin : get_skin_cluster source history = (some skin, hist1))
    (hts : (get_deform_shape target).isSome = true)
    (hbp : skin.bindPreMatrix.length = skin.influences)
    (hmat : skin.matrix.length = skin.influences)
    (hi : i < skin.influences) :
    onOk (move_skin source target history tnv)
      (fun res =>
        res.targetBind i = res.sourceSkin.bindPreMatrix.getD i freshSlot ∧
        res.targetMatrix i = res.sourceSkin.matrix.getD i freshSlot) := by
  rw [move_skin_eq_ok source target history tnv skin hist1 hskin hts]
  have hibp : i < skin.bindPreMatrix.length := by
    rw [hbp]
    exact hi
  have himat : i < skin.matrix.length := by
    rw [hmat]
    exact hi
  have hmemv : (i, (skin.bindPreMatrix[i]).value, (skin.matrix[i]).value) ∈
      zip3 (List.range skin.influences)
        (skin.bindPreMatrix.map fun x => x.value)
        (skin.matrix.map fun x => x.value) := by
    have := mem_zip3 (List.range skin.influences)
      (skin.bindPreMatrix.map fun x => x.value)
      (skin.matrix.map fun x => x.value) i
      (by simpa using hi) (by simpa using hibp) (by simpa using himat)
    simpa using this
  have hndv : (((zip3 (List.range skin.influences)
      (skin.bindPreMatrix.map fun x => x.value)
      (skin.matrix.map fun x => x.value))).map Prod.fst).Nodup := by
    rw [map_fst_zip3 skin.influences _ _ (by simp [hbp]) (by simp [hmat])]
    exact List.nodup_range _
  have hmemc : (i, (skin.bindPreMatrix[i]).input, (skin.matrix[i]).input) ∈
      zip3 (List.range skin.influences)
        (skin.bindPreMatrix.map fun x => x.input)
        (skin.matrix.map fun x => x.input) := by
    have := mem_zip3 (List.range skin.influences)
      (skin.bindPreMatrix.map fun x => x.input)
      (skin.matrix.map fun x => x.input) i
      (by simpa using hi) (by simpa using hibp) (by simpa using himat)
    simpa using this
  have hndc : (((zip3 (List.range skin.influences)
      (skin.bindPreMatrix.map fun x => x.input)
      (skin.matrix.map fun x => x.input))).map Prod.fst).Nodup := by
    rw [map_fst_zip3 skin.influences _ _ (by simp [hbp]) (by simp [hmat])]
    exact List.nodup_range _
  have hv := valuesLoop_mem
    (zip3 (List.range skin.influences)
      (skin.bindPreMatrix.map fun x => x.value)
      (skin.matrix.map fun x => x.value))
    freshArr freshArr i (skin.bindPreMatrix[i]).value (skin.matrix[i]).value
    hndv hmemv
  have hc := connectionsLoop_mem
    (zip3 (List.range skin.influences)
      (skin.bindPreMatrix.map fun x => x.input)
      (skin.matrix.map fun x => x.input))
    (valuesLoop freshArr freshArr
      (zip3 (List.range skin.influences)
        (skin.bindPreMatrix.map fun x => x.value)
        (skin.matrix.map fun x => x.value))).1
    (valuesLoop freshArr freshArr
      (zip3 (List.range skin.influences)
        (skin.bindPreMatrix.map fun x => x.value)
        (skin.matrix.map fun x => x.value))).2.1
    i (skin.bindPreMatrix[i]).input (skin.matrix[i]).input hndc hmemc
  show (mkResult skin hist1 tnv).targetBind i =
      skin.bindPreMatrix.getD i freshSlot ∧
    (mkResult skin hist1 tnv).targetMatrix i = skin.matrix.getD i freshSlot
  simp only [mkResult]
  rw [hc.1, hc.2, hv.1, hv.2,
    List.getD_eq_getElem skin.bindPreMatrix freshSlot hibp,
    List.getD_eq_getElem skin.matrix freshSlot himat]
  constructor
  · show ({ value := (skin.bindPreMatrix[i]).value,
            input := (skin.bindPreMatrix[i]).input.or none } : Slot) =
      skin.bindPreMatrix[i]
    rw [Option.or_none]
  · show ({ value := (skin.matrix[i]).value,
            input := (skin.matrix[i]).input.or none } : Slot) =
      skin.matrix[i]
    rw [Option.or_none]

/-- Witness for C3: on the fixture scene, slot 0 (connected on the source) and
its values are copied; the statement instantiates the theorem at index 0. -/
theorem C3_slot_values_and_connections_witness :
    onOk (move_skin wSource wTarget wHistory 2)
      (fun res =>
        res.targetBind 0 = res.sourceSkin.bindPreMatrix.getD 0 freshSlot ∧
        res.targetMatrix 0 = res.sourceSkin.matrix.getD 0 freshSlot) :=
  C3_slot_values_and_connections wSource wTarget wHistory 2 wSkin1 [wSkin1] 0
    rfl rfl rfl rfl (by decide)

/-- Claim C7: the transplant trace is two-pass — every bind and primary
transform value write of every influence slot below the influence count
appears in the trace, and no value write ever follows a connect event, so
no connection is established while some slot still lacks its copied
value. -/
theorem C7_two_pass_order (source target : PmOb)
    (history : List SkinCluster) (tnv : Nat) (skin : SkinCluster)
    (hist1 : List SkinCluster)
    (hskin : get_skin_cluster source history = (some skin, hist1))
    (hts : (get_deform_shape target).isSome = true)
    (hbp : skin.bindPreMatrix.length = skin.influences)
    (hmat : skin.matrix.length = skin.influences) :
    onOk (move_skin source target history tnv)
      (fun res => twoPassOk res ∧
        allValuesWritten res.sourceSkin res.events = true) := by
  rw [move_skin_eq_ok source target history tnv skin hist1 hskin hts]
  constructor
  · show twoPassOk (mkResult skin hist1 tnv)
    simp only [twoPassOk, mkResult]
    rw [List.append_assoc]
    apply pairwise_split
    · intro e he
      rcases List.mem_append.mp he with he0 | hev
      · rcases List.mem_cons.mp he0 with rfl | he1
        · rfl
        · rcases List.mem_singleton.mp he1 with rfl
          rfl
      · exact (valuesLoop_events_shape _ _ _ e hev).2
    · intro e he
      rcases List.mem_append.mp he with hec | hw
      · exact (connectionsLoop_events_shape _ _ _ e hec).2
      · rcases List.mem_singleton.mp hw with rfl
        rfl
  · show allValuesWritten skin (mkResult skin hist1 tnv).events = true
    simp only [allValuesWritten, List.all_eq_true]
    intro i hirange
    rw [List.mem_range] at hirange
    have hibp : i < skin.bindPreMatrix.length := by
      rw [hbp]
      exact hirange
    have himat : i < skin.matrix.length := by
      rw [hmat]
      exact hirange
    have hmemv : (i, (skin.bindPreMatrix[i]).value, (skin.matrix[i]).value) ∈
        zip3 (List.range skin.influences)
          (skin.bindPreMatrix.map fun x => x.value)
          (skin.matrix.map fun x => x.value) := by
      have := mem_zip3 (List.range skin.influences)
        (skin.bindPreMatrix.map fun x => x.value)
        (skin.matrix.map fun x => x.value) i
        (by simpa using hirange) (by simpa using hibp) (by simpa using himat)
      simpa using this
    have hev := valuesLoop_events_mem
      (zip3 (List.range skin.influences)
        (skin.bindPreMatrix.map fun x => x.value)
        (skin.matrix.map fun x => x.value))
      freshArr freshArr i (skin.bindPreMatrix[i]).value (skin.matrix[i]).value
      hmemv
    rw [Bool.and_eq_true, decide_eq_true_eq, decide_eq_true_eq,
      List.getD_eq_getElem skin.bindPreMatrix freshSlot hibp,
      List.getD_eq_getElem skin.matrix freshSlot himat]
    constructor
    · show Event.setBindValue i (skin.bindPreMatrix[i]).value ∈
        (mkResult skin hist1 tnv).events
      simp only [mkResult]
      exact List.mem_append_left _ (List.mem_append_left _
        (List.mem_append_right _ hev.1))
    · show Event.setMatValue i (skin.matrix[i]).value ∈
        (mkResult skin hist1 tnv).events
      simp only [mkResult]
      exact List.mem_append_left _ (List.mem_append_left _
        (List.mem_append_right _ hev.2))

/-- Witness for C7: the fixture run satisfies the two-pass ordering and writes
both values of both slots. -/
theorem C7_two_pass_order_witness :
    onOk (move_skin wSource wTarget wHistory 2)
      (fun res => twoPassOk res ∧
        allValuesWritten res.sourceSkin res.events = true) :=
  C7_two_pass_order wSource wTarget wHistory 2 wSkin1 [wSkin1] rfl rfl rfl rfl

end SkinMerge
